import Mathlib

/-!
# Verification of the WebDev plugin orchestration core

A shallow embedding, in Lean 4, of the core components of the
`nekro-plugin-webapp` repository:

* the virtual project filesystem with its ownership protocol
  (`src/services/vfs.py`),
* the streaming command parser (`src/core/command_parser.py`),
* the agent pool with its concurrency gate and `reawaken`
  (`src/agent_core.py`),
* and the per-agent orchestration-loop fragments that apply parsed
  actions to the VFS and drive the build/review gate
  (`src/services/agent_runner.py`).

Python dictionaries are embedded as association lists with first-match
lookup and in-place update; optional callback arguments become `Option`
function arguments; Python truthiness of optional strings (`None` and
`""` are falsy) is modelled explicitly.  Each definition mirrors the
corresponding Python function line by line.
-/

namespace WebDev

/-! ## Association lists with Python-dict semantics -/

/-- First-match lookup, as `dict.get`. -/
def dictGet (l : List (String × α)) (k : String) : Option α :=
  match l with
  | [] => none
  | (k', v) :: rest => if k' = k then some v else dictGet rest k

/-- `d[k] = v`: replace the value at the first occurrence of `k`,
keeping its position, or append a new binding. -/
def dictSet (l : List (String × α)) (k : String) (v : α) : List (String × α) :=
  match l with
  | [] => [(k, v)]
  | (k', v') :: rest =>
      if k' = k then (k', v) :: rest else (k', v') :: dictSet rest k v

/-- `del d[k]`: drop the binding for `k`. -/
def dictDel (l : List (String × α)) (k : String) : List (String × α) :=
  match l with
  | [] => []
  | (k', v') :: rest => if k' = k then rest else (k', v') :: dictDel rest k

/-- `k in d`. -/
def dictMem (l : List (String × α)) (k : String) : Bool :=
  (dictGet l k).isSome

/-- The keys of an association list. -/
def dictKeys (l : List (String × α)) : List String := l.map Prod.fst

/-- A Python dict never holds two bindings for one key. -/
def dictNodup (l : List (String × α)) : Prop := (dictKeys l).Nodup

/-! ## Virtual File System (`src/services/vfs.py`) -/

/-- Python-truthiness of an optional string: `None` and `""` are falsy. -/
def truthyOpt (o : Option String) : Bool :=
  match o with
  | none => false
  | some s => s ≠ ""

/-- The characters Python `str.strip()` removes. -/
def isPySpace (c : Char) : Bool :=
  c = ' ' ∨ c = '\t' ∨ c = '\n' ∨ c = '\r' ∨ c = '\x0b' ∨ c = '\x0c'

/-- Python `str.strip()` on a character list. -/
def pyStrip (s : List Char) : List Char :=
  ((s.dropWhile isPySpace).reverse.dropWhile isPySpace).reverse

/-- `path.strip().lstrip("./").lstrip("/")`: trim surrounding whitespace,
then drop every leading `.` or `/` character (the second `lstrip` is
subsumed by the first). -/
def cleanPath (path : String) : String :=
  String.mk ((pyStrip path.data).dropWhile (fun c => c = '.' ∨ c = '/'))

/-- Result of a VFS write/delete operation (`WriteResult`). -/
structure WriteResult where
  success : Bool
  error : Option String
  deriving Repr, DecidableEq

/-- The in-memory project state (`ProjectContext`): `files` maps a path to
its content, `fileOwners` maps a path to the owning agent id. -/
structure ProjectContext where
  files : List (String × String)
  fileOwners : List (String × String)
  deriving Repr, DecidableEq

/-- `ProjectContext.write_file`.  `agentId` is the writer
(`None` when absent), `parentIdChecker` and `ownerStatusChecker` are the
optional callbacks, `force` skips the final rejection.  Mirrors the
ordered branch structure of the source: parent override, then the
status-checker verdict, then `force`, then rejection; the write itself
plus first-owner assignment happen only after the checks pass. -/
def writeFile (ctx : ProjectContext) (path content : String)
    (agentId : Option String) (force : Bool)
    (parentIdChecker : Option (String → String → Bool))
    (ownerStatusChecker : Option (String → String)) :
    WriteResult × ProjectContext :=
  let clean := cleanPath path
  let currentOwner := dictGet ctx.fileOwners clean
  -- the successful tail of the function: write content, set first owner
  let finish : List (String × String) → WriteResult × ProjectContext :=
    fun owners =>
      let files' := dictSet ctx.files clean content
      let owners' :=
        if !truthyOpt currentOwner && truthyOpt agentId then
          dictSet owners clean (agentId.getD "")
        else owners
      (⟨true, none⟩, ⟨files', owners'⟩)
  if truthyOpt currentOwner && truthyOpt agentId &&
      decide (currentOwner ≠ agentId) then
    let owner := currentOwner.getD ""
    let writer := agentId.getD ""
    -- scenario 1: parent override
    if (parentIdChecker.map (fun pc => pc writer owner)).getD false then
      finish (dictSet ctx.fileOwners clean writer)
    else
      match ownerStatusChecker with
      | some sc =>
          -- scenario 2: smart transfer / reject by owner status
          let ownerStatus := sc owner
          if ownerStatus = "completed" ∨ ownerStatus = "failed" ∨
              ownerStatus = "cancelled" then
            finish (dictSet ctx.fileOwners clean writer)
          else if ownerStatus = "working" then
            (⟨false, some ("文件 " ++ clean ++ " 的所有者 " ++ owner ++
              " 正在工作中（状态: " ++ ownerStatus ++ "）。\n" ++
              "你无法编辑此文件。请等待其完成或联系你的父 Agent 处理。")⟩, ctx)
          else
            (⟨false, some ("文件 " ++ clean ++ " 的所有者 " ++ owner ++
              " 处于 " ++ ownerStatus ++ " 状态。\n" ++
              "无法确定是否可以安全转让所有权。")⟩, ctx)
      | none =>
          -- scenario 3: force write
          if force then
            finish (dictSet ctx.fileOwners clean writer)
          else
            -- scenario 4: reject
            (⟨false, some ("文件 " ++ clean ++ " 的所有权已被转让给 " ++ owner ++
              "。\n你无法再编辑此文件。请联系上级 Agent 了解情况。")⟩, ctx)
  else
    finish ctx.fileOwners

/-- `ProjectContext.transfer_ownership`: unconditional reassignment,
always returns `true`. -/
def transferOwnership (ctx : ProjectContext) (path newOwner : String)
    (_force : Bool) : Bool × ProjectContext :=
  let clean := cleanPath path
  (true, ⟨ctx.files, dictSet ctx.fileOwners clean newOwner⟩)

/-- `ProjectContext.delete_file`.  `workingAgents` is the optional list of
currently-WORKING agent ids supplied by the caller (`None` ↦ `none`;
an empty Python list is falsy, which the embedding reproduces). -/
def deleteFile (ctx : ProjectContext) (path : String) (confirmed : Bool)
    (workingAgents : Option (List String)) : WriteResult × ProjectContext :=
  let clean := cleanPath path
  if ¬ dictMem ctx.files clean then
    (⟨false, some ("文件 " ++ clean ++ " 不存在")⟩, ctx)
  else
    let owner := dictGet ctx.fileOwners clean
    let workingTruthy := match workingAgents with
      | none => false
      | some l => l ≠ []
    if truthyOpt owner && workingTruthy &&
        (workingAgents.getD []).contains (owner.getD "") && !confirmed then
      (⟨false, some ("文件 " ++ clean ++ " 的所有者 " ++ owner.getD "" ++
        " 正在工作中，无法删除。若仍需删除，请使用 confirmed=\"true\" 强制删除。")⟩, ctx)
    else
      (⟨true, none⟩, ⟨dictDel ctx.files clean, dictDel ctx.fileOwners clean⟩)

/-! ### Dictionary lemmas -/

theorem dictGet_dictSet_self (l : List (String × α)) (k : String) (v : α) :
    dictGet (dictSet l k v) k = some v := by
  induction l with
  | nil => simp [dictSet, dictGet]
  | cons hd tl ih =>
      obtain ⟨k', v'⟩ := hd
      by_cases h : k' = k <;> simp [dictSet, dictGet, h, ih]

theorem dictKeys_dictSet_eq (l : List (String × α)) (k : String) (v : α) :
    dictKeys (dictSet l k v) =
      if dictMem l k then dictKeys l else dictKeys l ++ [k] := by
  induction l with
  | nil => simp [dictSet, dictKeys, dictMem, dictGet]
  | cons hd tl ih =>
      obtain ⟨k', v'⟩ := hd
      by_cases h : k' = k
      · simp [dictSet, dictKeys, dictMem, dictGet, h]
      · simp only [dictSet, dictKeys, dictMem, dictGet, h, if_false,
          if_neg, List.map_cons] at ih ⊢
        rw [ih]
        by_cases hm : (dictGet tl k).isSome <;> simp [dictMem, hm]

theorem not_mem_dictKeys_of_dictMem_false (l : List (String × α)) (k : String)
    (h : dictMem l k = false) : k ∉ dictKeys l := by
  induction l with
  | nil => simp [dictKeys]
  | cons hd tl ih =>
      obtain ⟨k', v'⟩ := hd
      simp only [dictMem, dictGet] at h
      by_cases hk : k' = k
      · simp [hk] at h
      · simp only [hk, if_false, if_neg] at h
        simp only [dictKeys, List.map_cons, List.mem_cons]
        push_neg
        exact ⟨fun hc => hk hc.symm, ih h⟩

theorem dictNodup_dictSet (l : List (String × α)) (k : String) (v : α)
    (h : dictNodup l) : dictNodup (dictSet l k v) := by
  unfold dictNodup at h ⊢
  rw [dictKeys_dictSet_eq]
  by_cases hm : dictMem l k
  · simpa [hm] using h
  · simp only [hm, if_false, Bool.false_eq_true, if_neg]
    rw [List.nodup_append]
    refine ⟨h, List.nodup_singleton k, ?_⟩
    intro x hx hx'
    rw [List.mem_singleton] at hx'
    subst hx'
    exact not_mem_dictKeys_of_dictMem_false l x (by simpa using hm) hx

theorem dictKeys_dictDel_sublist (l : List (String × α)) (k : String) :
    List.Sublist (dictKeys (dictDel l k)) (dictKeys l) := by
  induction l with
  | nil => simp [dictDel]
  | cons hd tl ih =>
      obtain ⟨k', v'⟩ := hd
      by_cases h : k' = k
      · simp [dictDel, dictKeys, h, List.sublist_cons_self]
      · simpa [dictDel, dictKeys, h] using List.Sublist.cons₂ k' ih

theorem dictNodup_dictDel (l : List (String × α)) (k : String)
    (h : dictNodup l) : dictNodup (dictDel l k) :=
  List.Nodup.sublist (dictKeys_dictDel_sublist l k) h

/-! ### Theorems about the VFS ownership protocol -/

/-- C1 counterexample: a `force=true` write on a path owned by a
different, *working* agent is rejected when an `owner_status_checker`
is supplied — `force` does not bypass the working-owner rejection. -/
theorem c1_counterexample :
    (writeFile ⟨[("f.tsx", "old")], [("f.tsx", "A")]⟩ "f.tsx" "new"
        (some "B") true none (some (fun _ => "working"))).1.success = false := by
  decide

/-- C1 (amended): in `write_file`, the `force` flag is consulted only when
no `owner_status_checker` is supplied.  In that case a `force=true` write
on a path with a different existing owner succeeds and transfers
ownership to the writer, for any `parent_id_checker`.  When an
`owner_status_checker` is supplied it takes precedence over `force`:
a `working` owner status rejects the write even with `force=true`
(provided the parent check does not already grant the write). -/
theorem c1_force_write_amended (ctx : ProjectContext)
    (path content o w : String)
    (hOwner : dictGet ctx.fileOwners (cleanPath path) = some o)
    (ho : o ≠ "") (hw : w ≠ "") (how : o ≠ w) :
    (∀ pc, (writeFile ctx path content (some w) true pc none).1.success = true ∧
      dictGet (writeFile ctx path content (some w) true pc none).2.fileOwners
        (cleanPath path) = some w) ∧
    (∀ pc sc, (pc.map fun p => p w o).getD false = false → sc o = "working" →
      (writeFile ctx path content (some w) true pc (some sc)).1.success = false) := by
  have hne : (some o : Option String) ≠ some w := by
    intro h; exact how (Option.some_injective _ h)
  constructor
  · intro pc
    simp only [writeFile, hOwner, truthyOpt, ho, hw, hne, ne_eq,
      not_false_eq_true, decide_True, Bool.and_self, Option.getD_some]
    by_cases hpc : (pc.map fun p => p w o).getD false
    · simp [hpc, dictGet_dictSet_self]
    · simp [hpc, dictGet_dictSet_self]
  · intro pc sc hpc hsc
    simp only [writeFile, hOwner, truthyOpt, ho, hw, hne, ne_eq,
      not_false_eq_true, decide_True, Bool.and_self, Option.getD_some]
    simp [hpc, hsc]

/-- C1 amended witness. -/
theorem c1_force_write_amended_witness :
    (dictGet (⟨[("f.tsx", "old")], [("f.tsx", "A")]⟩ : ProjectContext).fileOwners
        (cleanPath "f.tsx") = some "A") ∧
    ((writeFile ⟨[("f.tsx", "old")], [("f.tsx", "A")]⟩ "f.tsx" "new"
        (some "B") true none none).1.success = true ∧
      dictGet (writeFile ⟨[("f.tsx", "old")], [("f.tsx", "A")]⟩ "f.tsx" "new"
          (some "B") true none none).2.fileOwners (cleanPath "f.tsx") = some "B") ∧
    (writeFile ⟨[("f.tsx", "old")], [("f.tsx", "A")]⟩ "f.tsx" "new"
        (some "B") true none (some (fun _ => "working"))).1.success = false := by
  have h := c1_force_write_amended ⟨[("f.tsx", "old")], [("f.tsx", "A")]⟩
    "f.tsx" "new" "A" "B" (by rfl) (by decide) (by decide) (by decide)
  exact ⟨by rfl, h.1 none, h.2 none (fun _ => "working") (by rfl) (by rfl)⟩

/-- C6: every VFS operation (`write_file`, `transfer_ownership`,
`delete_file`) preserves the at-most-one-owner-per-path invariant of the
ownership map (no duplicate keys); and after a successful
`transfer_ownership` of a path to a new owner `Y`, a subsequent
`write_file` by another agent `X` — in particular the prior owner — with
`force=false` and the default (absent) checker callbacks is rejected. -/
theorem c6_single_owner (ctx : ProjectContext) (h : dictNodup ctx.fileOwners)
    (path content newOwner : String) (agentId : Option String)
    (force confirmed : Bool)
    (pc : Option (String → String → Bool)) (sc : Option (String → String))
    (wa : Option (List String)) (X Y : String)
    (hX : X ≠ "") (hY : Y ≠ "") (hXY : X ≠ Y) :
    dictNodup (writeFile ctx path content agentId force pc sc).2.fileOwners ∧
    dictNodup (transferOwnership ctx path newOwner force).2.fileOwners ∧
    dictNodup (deleteFile ctx path confirmed wa).2.fileOwners ∧
    (writeFile (transferOwnership ctx path Y force).2 path content
        (some X) false none none).1.success = false := by
  have hYX : (some Y : Option String) ≠ some X := by
    intro hc; exact hXY (Option.some_injective _ hc).symm
  refine ⟨?_, ?_, ?_, ?_⟩
  · simp only [writeFile]
    repeat' split
    all_goals simp_all [dictNodup_dictSet]
  · exact dictNodup_dictSet _ _ _ h
  · simp only [deleteFile]
    repeat' split
    all_goals simp_all [dictNodup_dictDel]
  · simp only [writeFile, transferOwnership, dictGet_dictSet_self,
      truthyOpt, hY, hX, hYX, ne_eq, not_false_eq_true, decide_True,
      Bool.and_self, Option.map_none', Option.getD_none, Bool.false_eq_true,
      if_false]
    simp

/-- C6 witness. -/
theorem c6_single_owner_witness :
    dictNodup (⟨[("a.ts", "x")], [("a.ts", "X")]⟩ : ProjectContext).fileOwners ∧
    dictNodup (writeFile ⟨[("a.ts", "x")], [("a.ts", "X")]⟩ "a.ts" "y"
      (some "X") false none none).2.fileOwners ∧
    dictNodup (transferOwnership ⟨[("a.ts", "x")], [("a.ts", "X")]⟩
      "a.ts" "Y" false).2.fileOwners ∧
    dictNodup (deleteFile ⟨[("a.ts", "x")], [("a.ts", "X")]⟩
      "a.ts" true none).2.fileOwners ∧
    (writeFile (transferOwnership ⟨[("a.ts", "x")], [("a.ts", "X")]⟩
        "a.ts" "Y" false).2 "a.ts" "z" (some "X") false none none).1.success
      = false := by
  have h := c6_single_owner ⟨[("a.ts", "x")], [("a.ts", "X")]⟩
    (by constructor <;> simp) "a.ts" "y" "Y" (some "X") false true
    none none none "X" "Y" (by decide) (by decide) (by decide)
  exact ⟨by constructor <;> simp, h.1, h.2.1, h.2.2.1, h.2.2.2⟩

/-- C10: rejected VFS operations are atomic — whenever `write_file` or
`delete_file` returns an unsuccessful result, both the path→content map
and the path→owner map are exactly as they were before the call. -/
theorem c10_rejected_ops_atomic (ctx : ProjectContext) (path content : String)
    (agentId : Option String) (force confirmed : Bool)
    (pc : Option (String → String → Bool)) (sc : Option (String → String))
    (wa : Option (List String)) :
    ((writeFile ctx path content agentId force pc sc).1.success = false →
      (writeFile ctx path content agentId force pc sc).2 = ctx) ∧
    ((deleteFile ctx path confirmed wa).1.success = false →
      (deleteFile ctx path confirmed wa).2 = ctx) := by
  constructor
  · simp only [writeFile]
    repeat' split
    all_goals intro hfail
    all_goals first | rfl | simp_all
  · simp only [deleteFile]
    repeat' split
    all_goals intro hfail
    all_goals first | rfl | simp_all

/-- C10 witness. -/
theorem c10_rejected_ops_atomic_witness :
    ((writeFile ⟨[("a.ts", "x")], [("a.ts", "A")]⟩ "a.ts" "new"
        (some "B") false none none).1.success = false ∧
      (writeFile ⟨[("a.ts", "x")], [("a.ts", "A")]⟩ "a.ts" "new"
        (some "B") false none none).2 = ⟨[("a.ts", "x")], [("a.ts", "A")]⟩) ∧
    ((deleteFile ⟨[("a.ts", "x")], [("a.ts", "A")]⟩ "a.ts" false
        (some ["A"])).1.success = false ∧
      (deleteFile ⟨[("a.ts", "x")], [("a.ts", "A")]⟩ "a.ts" false
        (some ["A"])).2 = ⟨[("a.ts", "x")], [("a.ts", "A")]⟩) := by
  have h := c10_rejected_ops_atomic ⟨[("a.ts", "x")], [("a.ts", "A")]⟩
    "a.ts" "new" (some "B") false false none none (some ["A"])
  exact ⟨⟨by decide, h.1 (by decide)⟩, ⟨by decide, h.2 (by decide)⟩⟩

/-! ## Streaming command parser (`src/core/command_parser.py`)

The parser state is `buffer` / `current_file` / `current_content`; text is
embedded as `List Char`.  The three regexes are embedded as explicit
scanners with Python's leftmost-match and greedy-backtracking semantics:

* `TOOL_CMD_PATTERN`: `^@@(\w+)(?:\s+(.+))?$` with `re.MULTILINE` —
  `^` anchors at a line start, `\s+` may cross newlines, `(.+)` then
  runs to the end of its line;
* `FILE_START_PATTERN`: `<<<FILE:\s*([^>]+)>>>`;
* `FILE_END_PATTERN`: the literal `<<<END_FILE>>>`;
* `ARG_PATTERN`: `(\w+)\s*=\s*(?:"([^"]*)"|'([^']*)')` via `findall`.
-/

/-- `CommandType`. -/
inductive CommandType
  | file
  | toolCall
  deriving Repr, DecidableEq

/-- `ParsedCommand`, with the Python dataclass defaults for the fields
the constructor leaves unset. -/
structure ParsedCommand where
  type : CommandType
  filePath : Option String
  fileContent : Option String
  fileComplete : Bool
  toolName : Option String
  toolArgs : List (String × String)
  deriving Repr, DecidableEq

/-- A `FILE` command. -/
def mkFileCmd (path content : String) (complete : Bool) : ParsedCommand :=
  ⟨CommandType.file, some path, some content, complete, none, []⟩

/-- A `TOOL_CALL` command. -/
def mkToolCmd (name : String) (args : List (String × String)) : ParsedCommand :=
  ⟨CommandType.toolCall, none, none, false, some name, args⟩

/-- `\w` (ASCII view). -/
def isWordChar (c : Char) : Bool := c.isAlphanum || c = '_'

/-- Greedy backtracking for the optional `(?:\s+(.+))?` part of the
directive pattern, at the text `after` following the name, trying
whitespace runs of length `w`, `w-1`, …, `1`: `(.+)` must then match at
least one non-newline character and runs to the end of that line. -/
def tryToolArgs (after : List Char) : Nat → Option (Nat × List Char)
  | 0 => none
  | w + 1 =>
      match after.drop (w + 1) with
      | [] => tryToolArgs after w
      | c :: tail' =>
          if c = '\n' then tryToolArgs after w
          else
            let line := (c :: tail').takeWhile (fun ch => ch ≠ '\n')
            some (w + 1 + line.length, line)

/-- Attempt `@@(\w+)(?:\s+(.+))?$` at the head of `s` (assumed to be at a
line start).  Returns `(consumed length, name, optional args text)`. -/
def matchToolAt (s : List Char) : Option (Nat × List Char × Option (List Char)) :=
  match s with
  | '@' :: '@' :: rest =>
      let name := rest.takeWhile isWordChar
      if name.isEmpty then none
      else
        let afterName := rest.drop name.length
        let ws := afterName.takeWhile isPySpace
        match tryToolArgs afterName ws.length with
        | some (consumed, args) => some (2 + name.length + consumed, name, some args)
        | none =>
            if afterName.isEmpty || afterName.head? = some '\n' then
              some (2 + name.length, name, none)
            else none
  | _ => none

/-- `re.search` of the directive pattern: the leftmost line-start position
where `matchToolAt` succeeds.  Returns `(start, end, name, args)`. -/
def findToolCmd : List Char → Nat → Bool → Option (Nat × Nat × List Char × Option (List Char))
  | [], _, _ => none
  | c :: rest, pos, lineStart =>
      if lineStart then
        match matchToolAt (c :: rest) with
        | some (len, name, args) => some (pos, pos + len, name, args)
        | none => findToolCmd rest (pos + 1) (c = '\n')
      else findToolCmd rest (pos + 1) (c = '\n')

/-- Attempt one `ARG_PATTERN` match at the head of `s`; thanks to
`{k: v1 or v2}` the value is the quoted body whichever quote is used.
Returns `(consumed length, key, value)`. -/
def matchArgAt (s : List Char) : Option (Nat × List Char × List Char) :=
  let key := s.takeWhile isWordChar
  if key.isEmpty then none
  else
    let afterKey := s.drop key.length
    let ws1 := afterKey.takeWhile isPySpace
    match afterKey.drop ws1.length with
    | '=' :: afterEq =>
        let ws2 := afterEq.takeWhile isPySpace
        match afterEq.drop ws2.length with
        | '"' :: body' =>
            let body := body'.takeWhile (fun ch => ch ≠ '"')
            match body'.drop body.length with
            | '"' :: _ =>
                some (key.length + ws1.length + 1 + ws2.length + 1 + body.length + 1,
                  key, body)
            | _ => none
        | '\'' :: body' =>
            let body := body'.takeWhile (fun ch => ch ≠ '\'')
            match body'.drop body.length with
            | '\'' :: _ =>
                some (key.length + ws1.length + 1 + ws2.length + 1 + body.length + 1,
                  key, body)
            | _ => none
        | _ => none
    | _ => none

/-- `ARG_PATTERN.findall`: all non-overlapping leftmost matches. -/
def findArgsAux : Nat → List Char → List (List Char × List Char)
  | 0, _ => []
  | _ + 1, [] => []
  | fuel + 1, c :: rest =>
      match matchArgAt (c :: rest) with
      | some (consumed, k, v) => (k, v) :: findArgsAux fuel ((c :: rest).drop consumed)
      | none => findArgsAux fuel rest

/-- All `key="value"` pairs of an argument string. -/
def findArgs (s : List Char) : List (List Char × List Char) :=
  findArgsAux (s.length + 1) s

/-- `{k: v1 or v2 for k, v1, v2 in raw_args}`. -/
def argsToDict (l : List (List Char × List Char)) : List (String × String) :=
  l.foldl (fun d kv => dictSet d (String.mk kv.1) (String.mk kv.2)) []

/-- `str.lower()` on one character (ASCII view). -/
def pyLowerChar (c : Char) : Char :=
  if 65 ≤ c.toNat ∧ c.toNat ≤ 90 then Char.ofNat (c.toNat + 32) else c

/-- Alias mapping: `read` → `read_files`, after `.lower()`. -/
def toolNameOf (name : List Char) : String :=
  let r := String.mk (name.map pyLowerChar)
  if r = "read" then "read_files" else r

/-- The tool command produced from a directive match. -/
def toolCmdOf (name : List Char) (argsStr : Option (List Char)) : ParsedCommand :=
  mkToolCmd (toolNameOf name) (argsToDict (findArgs (argsStr.getD [])))

/-- `<<<FILE:` -/
def fileStartTag : List Char := "<<<FILE:".data

/-- `<<<END_FILE>>>` -/
def fileEndTag : List Char := "<<<END_FILE>>>".data

/-- Attempt `<<<FILE:\s*([^>]+)>>>` at the head of `s`: after the literal
tag, `\s*` and the greedy `[^>]+` together consume the maximal run of
non-`>` characters (nonempty), which must be followed by `>>>`.  The
captured group drops the maximal whitespace run unless that is the whole
run, in which case backtracking leaves its last character. -/
def matchFileStartAt (s : List Char) : Option (Nat × List Char) :=
  if fileStartTag.isPrefixOf s then
    let after := s.drop 8
    let r := after.takeWhile (fun c => c ≠ '>')
    if r.isEmpty then none
    else if ['>', '>', '>'].isPrefixOf (after.drop r.length) then
      let ws := r.takeWhile isPySpace
      let g := if ws.length < r.length then r.drop ws.length
        else r.drop (r.length - 1)
      some (8 + r.length + 3, g)
    else none
  else none

/-- `re.search` of the file-begin pattern: leftmost match.
Returns `(start, end, raw group)`. -/
def findFileStart : List Char → Nat → Option (Nat × Nat × List Char)
  | [], _ => none
  | c :: rest, pos =>
      match matchFileStartAt (c :: rest) with
      | some (len, g) => some (pos, pos + len, g)
      | none => findFileStart rest (pos + 1)

/-- First index at which `pat` occurs in the text (`str.find`). -/
def findSubAux (pat : List Char) : List Char → Nat → Option Nat
  | [], pos => if pat.isEmpty then some pos else none
  | c :: rest, pos =>
      if pat.isPrefixOf (c :: rest) then some pos
      else findSubAux pat rest (pos + 1)

/-- `pat in s`. -/
def containsSub (pat s : List Char) : Bool := (findSubAux pat s 0).isSome

/-- Last index at which `pat` occurs (`str.rfind`); `0` when absent
(only called after a containment check). -/
def rfindSub (pat s : List Char) : Nat :=
  (List.range (s.length + 1)).foldl
    (fun acc i => if pat.isPrefixOf (s.drop i) then i else acc) 0

/-- Parser state: `buffer`, `current_file`, `current_content`. -/
structure ParserState where
  buffer : List Char
  currentFile : Option String
  currentContent : List Char
  deriving Repr, DecidableEq

/-- A fresh `CommandStreamParser`. -/
def initParser : ParserState := ⟨[], none, []⟩

/-- A line that `str.strip()`s to empty. -/
def isBlankLine (l : List Char) : Bool := l.all isPySpace

/-- `_clean_content`: split on newlines, drop blank lines at both ends,
rejoin. -/
def cleanContent (content : List Char) : String :=
  let lines := content.splitOn '\n'
  let lines := lines.dropWhile isBlankLine
  let lines := (lines.reverse.dropWhile isBlankLine).reverse
  String.mk (List.intercalate ['\n'] lines)

/-- The `while True` body of `feed`, with fuel (each pass that continues
strictly shrinks the buffer, so `buffer.length + 1` passes suffice). -/
def feedLoop : Nat → ParserState → List ParsedCommand × ParserState
  | 0, st => ([], st)
  | fuel + 1, st =>
      match st.currentFile with
      | none =>
          -- SCANNING: directive first …
          let toolStep :=
            match findToolCmd st.buffer 0 true with
            | some (ms, me, name, argsStr) =>
                if me < st.buffer.length ∨ (st.buffer.drop ms).contains '\n' then
                  some (ms, me, name, argsStr)
                else none
            | none => none
          match toolStep with
          | some (_, me, name, argsStr) =>
              let st' : ParserState :=
                ⟨(st.buffer.drop me).dropWhile (fun c => c = '\n'), none,
                  st.currentContent⟩
              let r := feedLoop fuel st'
              (toolCmdOf name argsStr :: r.1, r.2)
          | none =>
              -- … then file begin …
              match findFileStart st.buffer 0 with
              | some (_, fe, g) =>
                  feedLoop fuel
                    ⟨st.buffer.drop fe, some (String.mk (pyStrip g)), []⟩
              | none =>
                  -- … else keep a possibly-truncated marker tail
                  if containsSub "<<<".data st.buffer then
                    let idx := rfindSub "<<<".data st.buffer
                    if 0 < idx then
                      feedLoop fuel ⟨st.buffer.drop idx, none, st.currentContent⟩
                    else ([], st)
                  else if containsSub "@@".data st.buffer then
                    let idx := rfindSub "@@".data st.buffer
                    if 0 < idx then
                      feedLoop fuel ⟨st.buffer.drop idx, none, st.currentContent⟩
                    else ([], st)
                  else ([], st)
      | some path =>
          -- IN_FILE: look for the end marker
          match findSubAux fileEndTag st.buffer 0 with
          | some idx =>
              let content := st.currentContent ++ st.buffer.take idx
              let st' : ParserState :=
                ⟨st.buffer.drop (idx + 14), none, []⟩
              let r := feedLoop fuel st'
              (mkFileCmd path (cleanContent content) true :: r.1, r.2)
          | none =>
              if containsSub "<<<".data st.buffer then
                let idx := rfindSub "<<<".data st.buffer
                ([], ⟨st.buffer.drop idx, some path,
                  st.currentContent ++ st.buffer.take idx⟩)
              else
                ([], ⟨[], some path, st.currentContent ++ st.buffer⟩)

/-- `CommandStreamParser.feed`. -/
def feed (st : ParserState) (chunk : String) : List ParsedCommand × ParserState :=
  let buf := st.buffer ++ chunk.data
  feedLoop (buf.length + 1) ⟨buf, st.currentFile, st.currentContent⟩

/-- `CommandStreamParser.flush`: one last directive parse on the residual
buffer (no completeness requirement), then the incomplete file, if any. -/
def flush (st : ParserState) : List ParsedCommand × ParserState :=
  let step1 : List ParsedCommand × ParserState :=
    if (pyStrip st.buffer).isEmpty then ([], st)
    else
      match findToolCmd st.buffer 0 true with
      | some (_, _, name, argsStr) =>
          ([toolCmdOf name argsStr], ⟨[], st.currentFile, st.currentContent⟩)
      | none => ([], st)
  let st1 := step1.2
  match st1.currentFile with
  | some p =>
      if p ≠ "" ∧ ¬ st1.currentContent.isEmpty then
        (step1.1 ++ [mkFileCmd p (cleanContent (st1.currentContent ++ st1.buffer)) false],
          ⟨[], none, []⟩)
      else (step1.1, st1)
  | none => (step1.1, st1)

/-- Feed a list of chunks through a fresh parser, then `flush`, and
collect all emitted commands in order (the usage pattern of the
orchestration loop). -/
def runParser (chunks : List String) : List ParsedCommand :=
  let r := chunks.foldl
    (fun acc ch =>
      let fr := feed acc.2 ch
      (acc.1 ++ fr.1, fr.2))
    (([], initParser) : List ParsedCommand × ParserState)
  r.1 ++ (flush r.2).1

/-! ### Theorems about the streaming parser -/

/-- C2: chunk-boundary invariance FAILS.  For the text
`"<<<FILE: a>>>\n@@t\nx\n<<<END_FILE>>>\n"`, feeding it whole makes the
directive search (which runs first and scans the whole buffer) consume
the `@@t` line and discard the file-begin marker before it, yielding one
`TOOL_CALL`; feeding it split after the file-begin marker enters the
in-file state first, so the same text yields one complete `FILE` command
whose body contains the directive line.  The two chunkings produce
different command lists. -/
theorem c2_chunk_boundary_divergence :
    runParser ["<<<FILE: a>>>\n@@t\nx\n<<<END_FILE>>>\n"] =
      [mkToolCmd "t" []] ∧
    runParser ["<<<FILE: a>>>\n", "@@t\nx\n<<<END_FILE>>>\n"] =
      [mkFileCmd "a" "@@t\nx" true] := by
  exact ⟨by decide, by decide⟩

/-- C5 counterexample: with the buffer
`"<<<FILE: b.ts>>>\n@@run k=\"v\"\nbody\n<<<END_FILE>>>\n"` the file-begin
marker occurs at index 0 and the complete directive line at index 17,
yet the first (and only) emitted command is the `TOOL_CALL` — the
lower-index construct is not consumed first, and the directive after the
file-begin marker is *not* treated as file body (no `FILE` command for
`b.ts` is ever produced). -/
theorem c5_counterexample :
    (runParser ["<<<FILE: b.ts>>>\n@@run k=\"v\"\nbody\n<<<END_FILE>>>\n"]).head? =
      some (mkToolCmd "run" [("k", "v")]) ∧
    ∀ cmd ∈ runParser ["<<<FILE: b.ts>>>\n@@run k=\"v\"\nbody\n<<<END_FILE>>>\n"],
      cmd.filePath ≠ some "b.ts" := by
  exact ⟨by decide, by decide⟩

/-- C5 (amended): in `SCANNING` state the parser checks for a complete
directive line *first*, searching the whole buffer; whenever such a
directive exists, the first command emitted by `feed` is that directive's
`ToolCall`, regardless of whether a file-begin marker occurs at a lower
index (any text before the directive, including such a marker, is
discarded with the consumed span). -/
theorem c5_directive_precedence_amended (st : ParserState) (chunk : String)
    (hscan : st.currentFile = none)
    (ms me : Nat) (name : List Char) (argsStr : Option (List Char))
    (hfind : findToolCmd (st.buffer ++ chunk.data) 0 true =
      some (ms, me, name, argsStr))
    (hcomplete : me < (st.buffer ++ chunk.data).length ∨
      ((st.buffer ++ chunk.data).drop ms).contains '\n') :
    (feed st chunk).1.head? = some (toolCmdOf name argsStr) := by
  simp only [feed, feedLoop, hscan, hfind, hcomplete, if_pos]
  simp

/-- C5 amended witness. -/
theorem c5_directive_precedence_amended_witness :
    initParser.currentFile = none ∧
    findToolCmd (initParser.buffer ++ ("@@go a=\"1\"\n" : String).data) 0 true =
      some (0, 10, ['g', 'o'], some "a=\"1\"".data) ∧
    (10 < (initParser.buffer ++ ("@@go a=\"1\"\n" : String).data).length ∨
      ((initParser.buffer ++ ("@@go a=\"1\"\n" : String).data).drop 0).contains '\n') ∧
    (feed initParser "@@go a=\"1\"\n").1.head? =
      some (toolCmdOf ['g', 'o'] (some "a=\"1\"".data)) := by
  refine ⟨rfl, by decide, by decide, ?_⟩
  exact c5_directive_precedence_amended initParser "@@go a=\"1\"\n" rfl 0 10
    ['g', 'o'] (some "a=\"1\"".data) (by decide) (by decide)

/-! ## Agent pool and lifecycle (`src/agent_core.py`)

`AgentPool.create` is a polling loop: each pass loads the conversation's
persisted agent map, admits the new agent when the number of *active*
agents is below the ceiling, raises a quota error when `wait_for_slot`
is false, raises a timeout once the elapsed time reaches `wait_timeout`,
and otherwise sleeps two seconds and retries.  The embedding makes the
sequence of loaded snapshots explicit (one map per pass) and advances
the elapsed clock by the two-second sleep; wall-clock jitter is
abstracted away. -/

/-- `SubAgentStatus`. -/
inductive SubAgentStatus
  | pending
  | working
  | waitingInput
  | reviewing
  | completed
  | failed
  | cancelled
  deriving Repr, DecidableEq

/-- `SubAgentStatus.is_active`. -/
def SubAgentStatus.isActive (s : SubAgentStatus) : Bool :=
  match s with
  | .pending | .working | .waitingInput => true
  | _ => false

/-- `SubAgentStatus.is_terminal`. -/
def SubAgentStatus.isTerminal (s : SubAgentStatus) : Bool :=
  match s with
  | .completed | .failed | .cancelled => true
  | _ => false

/-- `AgentMessage` (timestamps are abstract `Nat` instants). -/
structure AgentMessage where
  sender : String
  content : String
  msgType : String
  timestamp : Nat
  deriving Repr, DecidableEq

/-- `ChildSpec` (the fields the pool operations consult). -/
structure ChildSpec where
  role : String
  task : String
  reuse : Option String
  deriving Repr, DecidableEq

/-- `SubAgent`: the fields touched by the pool operations under study. -/
structure SubAgent where
  agentId : String
  chatKey : String
  task : String
  status : SubAgentStatus
  progress : Nat
  currentStep : String
  messages : List AgentMessage
  updatedAt : Nat
  parentId : Option String
  childrenIds : List String
  spec : Option ChildSpec
  deriving Repr, DecidableEq

/-- `SubAgent.add_message`. -/
def addMessage (a : SubAgent) (sender content msgType : String) (now : Nat) :
    SubAgent :=
  { a with messages := a.messages ++ [⟨sender, content, msgType, now⟩],
           updatedAt := now }

/-- A conversation's persisted agent map (`agent_id -> SubAgent`). -/
abbrev AgentMap := List (String × SubAgent)

/-- `sum(1 for a in agents.values() if a.is_active())`. -/
def activeCount (m : AgentMap) : Nat :=
  (m.filter (fun p => p.2.status.isActive)).length

/-- The number of agents whose status is WORKING (the quantity named by
the specification's concurrency-gate sentence). -/
def workingCount (m : AgentMap) : Nat :=
  (m.filter (fun p => p.2.status = SubAgentStatus.working)).length

/-- A freshly-constructed agent (`self._agent_class(...)` with the model
defaults of `SubAgent`). -/
def mkAgent (agentId chatKey task : String) (now : Nat) : SubAgent :=
  ⟨agentId, chatKey, task, SubAgentStatus.pending, 0, "", [], now, none, [], none⟩

/-- Outcome of `AgentPool.create`. -/
inductive CreateOutcome
  | created (agent : SubAgent) (saved : AgentMap)
  | quotaError
  | timeoutError
  | noMoreSnapshots
  deriving Repr, DecidableEq

/-- `AgentPool.create`: one recursive pass per loaded snapshot.
`elapsed` is the time observed at the current pass; a failed pass sleeps
two seconds before the next load. -/
def createRun (maxConcurrent waitTimeout : Nat) (waitForSlot : Bool)
    (newId chatKey task : String) (now : Nat) :
    List AgentMap → Nat → CreateOutcome
  | [], _ => CreateOutcome.noMoreSnapshots
  | m :: rest, elapsed =>
      if activeCount m < maxConcurrent then
        let agent := mkAgent newId chatKey task now
        CreateOutcome.created agent (dictSet m newId agent)
      else if ¬ waitForSlot then CreateOutcome.quotaError
      else if waitTimeout ≤ elapsed then CreateOutcome.timeoutError
      else createRun maxConcurrent waitTimeout waitForSlot newId chatKey task now
        rest (elapsed + 2)

/-- `AgentPool.reawaken` acting on the persisted map and the parent:
returns the revived agent (or `none`), the updated map, and the updated
parent. -/
def reawaken (parent : SubAgent) (agentId newTask : String)
    (spec : Option ChildSpec) (agents : AgentMap) (now : Nat) :
    Option SubAgent × AgentMap × SubAgent :=
  match dictGet agents agentId with
  | none => (none, agents, parent)
  | some target =>
      if target.status = SubAgentStatus.working then (none, agents, parent)
      else
        let t1 := { target with
          status := SubAgentStatus.pending,
          task := newTask,
          progress := 0,
          currentStep := "reawakened",
          updatedAt := now }
        let t2 := addMessage t1 "system"
          ("你已被重新激活以继续工作。新任务：" ++ newTask) "instruction" now
        let t3 := match spec with
          | some s => { t2 with spec := some s }
          | none => t2
        let parent' :=
          if agentId ∈ parent.childrenIds then parent
          else { parent with childrenIds := parent.childrenIds ++ [agentId] }
        (some t3, dictSet agents agentId t3, parent')

/-- The whole per-conversation state visible to the pool operations:
the persisted agent map plus the conversation's VFS.  `reawaken` reads
and writes only the agent map. -/
structure ConversationState where
  agents : AgentMap
  vfs : ProjectContext
  deriving Repr, DecidableEq

/-- `reawaken` lifted to the conversation state (the code path touches
only the pool store, never the VFS registry). -/
def reawakenConv (st : ConversationState) (parent : SubAgent)
    (agentId newTask : String) (spec : Option ChildSpec) (now : Nat) :
    Option SubAgent × ConversationState × SubAgent :=
  let r := reawaken parent agentId newTask spec st.agents now
  (r.1, ⟨r.2.1, st.vfs⟩, r.2.2)

/-! ### Theorems about the pool -/

/-- C3 counterexample: with a ceiling of 1, a conversation holding one
PENDING agent has zero WORKING agents, yet `create` with
`waitForSlot=false` fails with the quota error instead of admitting —
the gate counts *active* agents (PENDING/WORKING/WAITING_INPUT), not
WORKING ones. -/
theorem c3_counterexample :
    workingCount [("Web_0001", mkAgent "Web_0001" "chat" "t0" 0)] = 0 ∧
    createRun 1 300 false "Web_0002" "chat" "t1" 0
      [[("Web_0001", mkAgent "Web_0001" "chat" "t0" 0)]] 0 =
      CreateOutcome.quotaError := by
  exact ⟨by decide, by decide⟩

/-- C3 (amended): `AgentPool.create` admits a new agent for a
conversation exactly when the number of that conversation's agents with
an *active* status (PENDING, WORKING or WAITING_INPUT) is below the
ceiling; at the ceiling it fails immediately when `waitForSlot` is
false, and otherwise polls (two seconds per pass) until a snapshot
drops below the ceiling or the wait timeout elapses, in which case it
fails with a timeout. -/
theorem c3_concurrency_gate_amended (ceil timeout : Nat) (wfs : Bool)
    (newId chatKey task : String) (now : Nat) :
    (∀ m rest elapsed, activeCount m < ceil →
      createRun ceil timeout wfs newId chatKey task now (m :: rest) elapsed =
        CreateOutcome.created (mkAgent newId chatKey task now)
          (dictSet m newId (mkAgent newId chatKey task now))) ∧
    (∀ m rest elapsed, ceil ≤ activeCount m → wfs = false →
      createRun ceil timeout wfs newId chatKey task now (m :: rest) elapsed =
        CreateOutcome.quotaError) ∧
    (∀ snaps elapsed, wfs = true → (∀ m ∈ snaps, ceil ≤ activeCount m) →
      timeout + 2 ≤ elapsed + 2 * snaps.length → snaps ≠ [] →
      createRun ceil timeout wfs newId chatKey task now snaps elapsed =
        CreateOutcome.timeoutError) ∧
    (∀ snaps m' rest elapsed, wfs = true →
      (∀ m ∈ snaps, ceil ≤ activeCount m) → activeCount m' < ceil →
      elapsed + 2 * snaps.length < timeout + 2 →
      createRun ceil timeout wfs newId chatKey task now (snaps ++ m' :: rest)
          elapsed =
        CreateOutcome.created (mkAgent newId chatKey task now)
          (dictSet m' newId (mkAgent newId chatKey task now))) := by
  refine ⟨?_, ?_, ?_, ?_⟩
  · intro m rest elapsed h
    simp [createRun, h]
  · intro m rest elapsed h hw
    subst hw
    simp [createRun, Nat.not_lt.mpr h]
  · intro snaps
    induction snaps with
    | nil => intro elapsed _ _ _ hne; exact absurd rfl hne
    | cons m rest ih =>
        intro elapsed hw hfull hto _
        have hm : ceil ≤ activeCount m := hfull m (by simp)
        subst hw
        by_cases hel : timeout ≤ elapsed
        · simp [createRun, Nat.not_lt.mpr hm, hel]
        · have hrest : rest ≠ [] := by
            rintro rfl
            simp only [List.length_cons, List.length_nil] at hto
            omega
          simp only [createRun, Nat.not_lt.mpr hm, if_false, hel, if_pos,
            not_true_eq_false, Bool.not_true, reduceIte]
          have := ih (elapsed + 2) rfl (fun x hx => hfull x (by simp [hx]))
            (by simp only [List.length_cons] at hto ⊢; omega) hrest
          simpa using this
  · intro snaps
    induction snaps with
    | nil =>
        intro m' rest elapsed _ _ hlt _
        simp [createRun, hlt]
    | cons m srest ih =>
        intro m' rest elapsed hw hfull hlt hbound
        have hm : ceil ≤ activeCount m := hfull m (by simp)
        subst hw
        have hel : ¬ timeout ≤ elapsed := by
          simp only [List.length_cons] at hbound; omega
        simp only [List.cons_append, createRun, Nat.not_lt.mpr hm, if_false,
          hel, not_true_eq_false, Bool.not_true, reduceIte]
        have := ih m' rest (elapsed + 2) rfl (fun x hx => hfull x (by simp [hx]))
          hlt (by simp only [List.length_cons] at hbound ⊢; omega)
        simpa using this

/-- C3 amended witness. -/
theorem c3_concurrency_gate_amended_witness :
    createRun 1 300 true "W2" "c" "t" 5 [[]] 0 =
      CreateOutcome.created (mkAgent "W2" "c" "t" 5)
        (dictSet [] "W2" (mkAgent "W2" "c" "t" 5)) ∧
    createRun 1 300 false "W2" "c" "t" 5
      [[("W1", mkAgent "W1" "c" "t0" 0)]] 0 = CreateOutcome.quotaError ∧
    createRun 1 0 true "W2" "c" "t" 5
      [[("W1", mkAgent "W1" "c" "t0" 0)]] 0 = CreateOutcome.timeoutError ∧
    createRun 1 300 true "W2" "c" "t" 5
      [[("W1", mkAgent "W1" "c" "t0" 0)], []] 0 =
      CreateOutcome.created (mkAgent "W2" "c" "t" 5)
        (dictSet [] "W2" (mkAgent "W2" "c" "t" 5)) := by
  have h := c3_concurrency_gate_amended 1 300 true "W2" "c" "t" 5
  have h' := c3_concurrency_gate_amended 1 300 false "W2" "c" "t" 5
  have ht := c3_concurrency_gate_amended 1 0 true "W2" "c" "t" 5
  refine ⟨h.1 [] [] 0 (by decide), h'.2.1 _ [] 0 (by decide) rfl,
    ht.2.2.1 _ 0 rfl ?_ (by decide) (by decide),
    h.2.2.2 [[("W1", mkAgent "W1" "c" "t0" 0)]] [] [] 0 rfl ?_ (by decide)
      (by decide)⟩
  · intro m hm
    simp only [List.mem_singleton] at hm
    subst hm
    decide
  · intro m hm
    simp only [List.mem_singleton] at hm
    subst hm
    decide

/-- C9: `AgentPool.reawaken` on a WORKING target returns `None` and
leaves the whole conversation state (agent map, parent, VFS) unchanged;
on a target in any terminal status it returns the revived agent, whose
status is reset to PENDING, whose task is the new task text, and whose
message log gained exactly the system reactivation message; the target
is appended to the parent's child list only if not already present, and
the VFS — in particular every file ownership held by the target — is
untouched. -/
theorem c9_reawaken_semantics (st : ConversationState) (parent : SubAgent)
    (agentId newTask : String) (spec : Option ChildSpec) (now : Nat)
    (target : SubAgent) (hget : dictGet st.agents agentId = some target) :
    (target.status = SubAgentStatus.working →
      reawakenConv st parent agentId newTask spec now = (none, st, parent)) ∧
    (target.status.isTerminal = true →
      ∃ t', reawakenConv st parent agentId newTask spec now =
          (some t', ⟨dictSet st.agents agentId t', st.vfs⟩,
            if agentId ∈ parent.childrenIds then parent
            else { parent with childrenIds := parent.childrenIds ++ [agentId] }) ∧
        t'.status = SubAgentStatus.pending ∧
        t'.task = newTask ∧
        t'.messages = target.messages ++
          [⟨"system", "你已被重新激活以继续工作。新任务：" ++ newTask,
            "instruction", now⟩]) := by
  constructor
  · intro hw
    simp only [reawakenConv, reawaken, hget, hw, if_pos]
  · intro ht
    have hnw : ¬ target.status = SubAgentStatus.working := by
      intro hw
      rw [hw] at ht
      simp [SubAgentStatus.isTerminal] at ht
    refine ⟨?_, ?_, ?_, ?_, ?_⟩
    · exact (match spec with
        | some s => { target with
            status := SubAgentStatus.pending, task := newTask, progress := 0,
            currentStep := "reawakened", updatedAt := now,
            messages := target.messages ++
              [⟨"system", "你已被重新激活以继续工作。新任务：" ++ newTask,
                "instruction", now⟩],
            spec := some s }
        | none => { target with
            status := SubAgentStatus.pending, task := newTask, progress := 0,
            currentStep := "reawakened", updatedAt := now,
            messages := target.messages ++
              [⟨"system", "你已被重新激活以继续工作。新任务：" ++ newTask,
                "instruction", now⟩] })
    · cases spec <;>
        simp only [reawakenConv, reawaken, hget, hnw, if_false, addMessage,
          reduceIte]
    · cases spec <;> rfl
    · cases spec <;> rfl
    · cases spec <;> rfl

/-- C9 witness. -/
theorem c9_reawaken_semantics_witness :
    (dictGet [("A2", mkAgent "A2" "c" "t0" 0)] "A2" =
      some (mkAgent "A2" "c" "t0" 0) → True) ∧
    (reawakenConv
        ⟨[("A2", { mkAgent "A2" "c" "t0" 0 with
                    status := SubAgentStatus.working })],
          ⟨[("f.ts", "x")], [("f.ts", "A2")]⟩⟩
        (mkAgent "A1" "c" "p" 0) "A2" "new task" none 7 =
      (none,
        ⟨[("A2", { mkAgent "A2" "c" "t0" 0 with
                    status := SubAgentStatus.working })],
          ⟨[("f.ts", "x")], [("f.ts", "A2")]⟩⟩,
        mkAgent "A1" "c" "p" 0)) ∧
    ∃ t', reawakenConv
        ⟨[("A2", { mkAgent "A2" "c" "t0" 0 with
                    status := SubAgentStatus.completed })],
          ⟨[("f.ts", "x")], [("f.ts", "A2")]⟩⟩
        (mkAgent "A1" "c" "p" 0) "A2" "new task" none 7 =
      (some t',
        ⟨dictSet [("A2", { mkAgent "A2" "c" "t0" 0 with
                    status := SubAgentStatus.completed })] "A2" t',
          ⟨[("f.ts", "x")], [("f.ts", "A2")]⟩⟩,
        { mkAgent "A1" "c" "p" 0 with childrenIds := [] ++ ["A2"] }) ∧
      t'.status = SubAgentStatus.pending ∧
      t'.task = "new task" ∧
      t'.messages = [] ++
        [⟨"system", "你已被重新激活以继续工作。新任务：new task",
          "instruction", 7⟩] := by
  refine ⟨fun _ => trivial, ?_, ?_⟩
  · exact (c9_reawaken_semantics
      ⟨[("A2", { mkAgent "A2" "c" "t0" 0 with
          status := SubAgentStatus.working })],
        ⟨[("f.ts", "x")], [("f.ts", "A2")]⟩⟩
      (mkAgent "A1" "c" "p" 0) "A2" "new task" none 7
      { mkAgent "A2" "c" "t0" 0 with status := SubAgentStatus.working }
      (by decide)).1 rfl
  · have h := (c9_reawaken_semantics
      ⟨[("A2", { mkAgent "A2" "c" "t0" 0 with
          status := SubAgentStatus.completed })],
        ⟨[("f.ts", "x")], [("f.ts", "A2")]⟩⟩
      (mkAgent "A1" "c" "p" 0) "A2" "new task" none 7
      { mkAgent "A2" "c" "t0" 0 with status := SubAgentStatus.completed }
      (by decide)).2 (by decide)
    obtain ⟨t', heq, hstat, htask, hmsg⟩ := h
    exact ⟨t', by simpa using heq, hstat, htask, by simpa using hmsg⟩

/-! ## Orchestration loop fragments (`src/services/agent_runner.py`)

The per-agent loop body is embedded in three pieces, matching the claims
under study: the action-application fragment (abort check, the
read-before-write deferral gate, VFS writes with the two checker
callbacks, view-file feedback, ownership transfers, deletions,
`output_ready` and dependency recording); the root build-failure
handling; and the review gate with its fail-open ceiling.  The external
collaborators (content validators for the write hook, the compile-error
enhancer) enter as function parameters. -/

/-- `metadata` keys the loop reads and writes. -/
structure RunnerMeta where
  reviewStatus : Option String
  reviewWarning : Option String
  dependencies : List String
  deriving Repr, DecidableEq

/-- The `WebDevAgent` fields the loop fragments touch. -/
structure RunnerAgent where
  agentId : String
  status : SubAgentStatus
  messages : List AgentMessage
  metadata : RunnerMeta
  outputReady : Bool
  reviewRounds : Nat
  consecutiveFailures : Nat
  lastReviewComment : Option String
  errorMessage : Option String
  deriving Repr, DecidableEq

/-- `agent.add_message(...)`. -/
def addRunnerMsg (a : RunnerAgent) (sender content msgType : String)
    (now : Nat) : RunnerAgent :=
  { a with messages := a.messages ++ [⟨sender, content, msgType, now⟩] }

/-- `TransferFileSpec`. -/
structure TransferFileSpec where
  path : String
  toOwner : String
  force : Bool
  deriving Repr, DecidableEq

/-- `DeleteFileSpec`. -/
structure DeleteFileSpec where
  path : String
  confirmed : Bool
  deriving Repr, DecidableEq

/-- The `AgentAction` fields consumed by the embedded fragment. -/
structure AgentAction where
  files : List (String × String)
  viewFiles : List String
  transferFiles : List TransferFileSpec
  deleteFiles : List DeleteFileSpec
  dependencies : List String
  spawnChildren : List ChildSpec
  abortTask : Bool
  abortReason : Option String
  deriving Repr, DecidableEq

/-- How a round ends: the agent aborted, the loop `continue`d to the
next generation round, or control proceeds to the artifact phase. -/
inductive RoundCtl
  | aborted
  | continued
  | proceed
  deriving Repr, DecidableEq

/-- The `.value` string of a status (the Python enum values). -/
def statusValue : SubAgentStatus → String
  | .pending => "pending"
  | .working => "working"
  | .waitingInput => "waiting"
  | .reviewing => "reviewing"
  | .completed => "completed"
  | .failed => "failed"
  | .cancelled => "cancelled"

/-- `check_parent_child_relation`: the writer must be the owner's parent. -/
def checkParentChildRelation (agents : AgentMap) (writerId ownerId : String) :
    Bool :=
  match dictGet agents ownerId with
  | some owner => owner.parentId = some writerId
  | none => false

/-- `check_owner_status`: the owner's status value, `"unknown"` when the
owner is not in the pool. -/
def checkOwnerStatus (agents : AgentMap) (ownerId : String) : String :=
  match dictGet agents ownerId with
  | some a => statusValue a.status
  | none => "unknown"

/-- `str.endswith`. -/
def pyEndsWith (s suffix' : String) : Bool := suffix'.data.isSuffixOf s.data

/-- The per-path view results (`read_file` output formatting). -/
def viewResultsFor (ctx : ProjectContext) (paths : List String) : List String :=
  paths.map (fun p =>
    match dictGet ctx.files (cleanPath p) with
    | none => "File not found: " ++ p
    | some c => "Content of " ++ p ++ ":\n```\n" ++ c ++ "\n```")

/-- The neutral context injection of the read-before-write deferral
branch (results joined with a single newline). -/
def deferFeedback (ctx : ProjectContext) (paths : List String) : String :=
  "🔍 File Contents:\n" ++ String.intercalate "\n" (viewResultsFor ctx paths)
    ++ "\n\n请基于以上文件内容继续你的工作。"

/-- The `for path, content in action.files.items()` loop: validation
hook, then `write_file` with both checker callbacks, conflicts appended
to the agent's own log. -/
def applyWrites (agents : AgentMap)
    (validateJson validateTs : String → Bool × String)
    (agentId : String) (now : Nat) :
    ProjectContext × RunnerAgent → List (String × String) →
    ProjectContext × RunnerAgent
  | acc, [] => acc
  | (ctx, ag), (path, content) :: rest =>
      let vres :=
        if pyEndsWith path ".json" then validateJson content
        else if pyEndsWith path ".ts" || pyEndsWith path ".tsx" ||
            pyEndsWith path ".js" || pyEndsWith path ".jsx" then
          validateTs content
        else (true, "")
      if ¬ vres.1 then
        applyWrites agents validateJson validateTs agentId now
          (ctx, addRunnerMsg ag "system"
            ("⚠️ File '" ++ path ++ "' validation failed: " ++ vres.2)
            "feedback" now) rest
      else
        let wr := writeFile ctx path content (some agentId) false
          (some (checkParentChildRelation agents))
          (some (checkOwnerStatus agents))
        if wr.1.success then
          applyWrites agents validateJson validateTs agentId now
            (wr.2, ag) rest
        else
          applyWrites agents validateJson validateTs agentId now
            (wr.2, addRunnerMsg ag "system"
              ("🚫 文件写入失败: " ++ (wr.1.error.getD "")) "error" now) rest

/-- The ownership-transfer loop. -/
def applyTransfers (now : Nat) :
    ProjectContext × RunnerAgent → List TransferFileSpec →
    ProjectContext × RunnerAgent
  | acc, [] => acc
  | (ctx, ag), spec :: rest =>
      let tr := transferOwnership ctx spec.path spec.toOwner spec.force
      applyTransfers now
        (tr.2, addRunnerMsg ag "system"
          ("✅ 文件 " ++ spec.path ++ " 的所有权已转让给 " ++ spec.toOwner) "info" now)
        rest

/-- The deletion loop, with the WORKING-agent ids computed from the
pool snapshot. -/
def applyDeletes (agents : AgentMap) (now : Nat) :
    ProjectContext × RunnerAgent → List DeleteFileSpec →
    ProjectContext × RunnerAgent
  | acc, [] => acc
  | (ctx, ag), spec :: rest =>
      let workingIds := (agents.filter
        (fun p => p.2.status = SubAgentStatus.working)).map (fun p => p.2.agentId)
      let dr := deleteFile ctx spec.path spec.confirmed (some workingIds)
      let ag' :=
        if dr.1.success then
          addRunnerMsg ag "system" ("✅ 文件 " ++ spec.path ++ " 已删除") "info" now
        else
          addRunnerMsg ag "system" ("🚫 删除失败: " ++ (dr.1.error.getD ""))
            "error" now
      applyDeletes agents now (dr.2, ag') rest

/-- `current_deps` accumulation: append each declared dependency not
already present. -/
def mergeDeps (cur new : List String) : List String :=
  new.foldl (fun acc d => if acc.contains d then acc else acc ++ [d]) cur

/-- One round of the action-application fragment of `agent_loop`
(source order: abort check; read-before-write deferral; VFS writes and
review-status invalidation; view-file feedback (with its
view-only `continue`); ownership transfers; deletions; `output_ready`;
dependency recording). -/
def processRound (agents : AgentMap)
    (validateJson validateTs : String → Bool × String)
    (ctx : ProjectContext) (ag : RunnerAgent) (action : AgentAction)
    (now : Nat) : ProjectContext × RunnerAgent × RoundCtl :=
  if action.abortTask then
    (ctx,
      { ag with
        status := SubAgentStatus.failed,
        errorMessage :=
          some ("任务已中止: " ++ action.abortReason.getD "None") },
      RoundCtl.aborted)
  else if action.viewFiles ≠ [] ∧ action.files ≠ [] then
    (ctx, addRunnerMsg ag "system" (deferFeedback ctx action.viewFiles)
      "info" now, RoundCtl.continued)
  else
    let step1 :=
      if action.files ≠ [] then
        let w := applyWrites agents validateJson validateTs ag.agentId now
          (ctx, ag) action.files
        (w.1,
          if w.2.metadata.reviewStatus.isSome then
            { w.2 with metadata := { w.2.metadata with reviewStatus := none } }
          else w.2)
      else (ctx, ag)
    let ag2 :=
      if action.viewFiles ≠ [] then
        addRunnerMsg step1.2 "system"
          ("🔍 File Contents:\n" ++
            String.intercalate "\n\n" (viewResultsFor step1.1 action.viewFiles))
          "system" now
      else step1.2
    if action.viewFiles ≠ [] ∧ action.files = [] ∧ action.spawnChildren = [] then
      (step1.1, ag2, RoundCtl.continued)
    else
      let step3 := applyTransfers now (step1.1, ag2) action.transferFiles
      let step4 := applyDeletes agents now step3 action.deleteFiles
      let ag5 :=
        if action.files ≠ [] then { step4.2 with outputReady := true }
        else step4.2
      let ag6 :=
        if action.dependencies ≠ [] then
          let md := { ag5.metadata with
                      dependencies :=
                        mergeDeps ag5.metadata.dependencies action.dependencies }
          { ag5 with metadata := md }
        else ag5
      (step4.1, ag6, RoundCtl.proceed)

/-- The root build-failure handling (`enhance` stands for
`enhance_compile_error`): on success the consecutive-failure counter
resets; on failure it increments, and at three the agent is failed and
the loop stops, otherwise the enhanced error text is appended as
feedback and the loop continues.  The returned flag is "loop
terminated". -/
def buildRound (enhance : String → String) (ag : RunnerAgent) (ok : Bool)
    (result : String) (now : Nat) : RunnerAgent × Bool :=
  if ok then ({ ag with consecutiveFailures := 0 }, false)
  else
    let ag1 := { ag with consecutiveFailures := ag.consecutiveFailures + 1 }
    if 3 ≤ ag1.consecutiveFailures then
      ({ ag1 with
          status := SubAgentStatus.failed,
          errorMessage := some
            ("❌ 连续多次编译失败，疑似环境配置问题或死循环。任务已强制终止以节省资源。\n最后一次错误: "
              ++ result) }, true)
    else
      (addRunnerMsg ag1 "system"
        ("❌ Project Compilation Failed:\n" ++ enhance result ++
          "\n\nPlease analyze the error and modify the code to fix it.")
        "error" now, false)

/-- Iterated build outcomes: feed a sequence of `(success, errorText)`
build results through `buildRound`, stopping when the loop terminates;
also counts how many build attempts were made. -/
def runBuilds (enhance : String → String) (now : Nat) :
    RunnerAgent → List (Bool × String) → RunnerAgent × Nat
  | ag, [] => (ag, 0)
  | ag, (ok, res) :: rest =>
      let r := buildRound enhance ag ok res now
      if r.2 then (r.1, 1)
      else
        let rr := runBuilds enhance now r.1 rest
        (rr.1, rr.2 + 1)

/-- The fail-open warning text. -/
def reviewWarningMsg (rounds : Nat) (comment : String) : String :=
  "⚠️ 审查已连续失败 " ++ toString rounds ++ " 次，触发强制交付策略。\n最后一次审查意见: "
    ++ comment ++ "\n请人工介入检查潜在风险。"

/-- The rejection-feedback text. -/
def reviewRejectMsg (comment : String) : String :=
  "❌ **Deployment Rejected by Reviewer AI**\n\nYour code compiled, but failed the global consistency review.\n**Reason**:\n"
    ++ comment ++ "\n\n👉 Please fix these issues and try again."

/-- The review gate after a successful build (entered when
`review_status` is not already PASS).  The returned flag is "proceed to
deploy". -/
def reviewPhase (maxReviewRounds : Nat) (ag : RunnerAgent) (passed : Bool)
    (comment : String) (now : Nat) : RunnerAgent × Bool :=
  if passed then
    ({ ag with
        metadata := { ag.metadata with reviewStatus := some "PASS" },
        status := SubAgentStatus.working,
        reviewRounds := 0,
        lastReviewComment := none }, true)
  else
    let ag1 :=
      { ag with
        status := SubAgentStatus.working,
        reviewRounds := ag.reviewRounds + 1,
        lastReviewComment := some comment }
    if maxReviewRounds ≤ ag1.reviewRounds then
      ({ ag1 with
          metadata := { ag1.metadata with
                        reviewStatus := some "PASS",
                        reviewWarning :=
                          some (reviewWarningMsg ag1.reviewRounds comment) } },
        true)
    else
      (addRunnerMsg ag1 "system" (reviewRejectMsg comment) "feedback" now,
        false)

/-! ### Theorems about the loop fragments -/

/-- C4: in a round whose action carries both read requests and file
writes (and no abort), no write is applied — the VFS file-content and
ownership maps are returned unchanged — the loop continues to the next
round, and the only agent mutation is the appended system message
carrying the requested files' contents. -/
theorem c4_read_write_deferral (agents : AgentMap)
    (validateJson validateTs : String → Bool × String)
    (ctx : ProjectContext) (ag : RunnerAgent) (action : AgentAction) (now : Nat)
    (hab : action.abortTask = false)
    (hv : action.viewFiles ≠ []) (hf : action.files ≠ []) :
    (processRound agents validateJson validateTs ctx ag action now).1 = ctx ∧
    (processRound agents validateJson validateTs ctx ag action now).2.2 =
      RoundCtl.continued ∧
    (processRound agents validateJson validateTs ctx ag action now).2.1.messages =
      ag.messages ++
        [⟨"system", deferFeedback ctx action.viewFiles, "info", now⟩] := by
  simp [processRound, hab, hv, hf, addRunnerMsg]

/-- C4 witness. -/
theorem c4_read_write_deferral_witness :
    ((⟨[("src/Foo.tsx", "foo")], ["src/types.ts"], [], [], [], [], false,
        none⟩ : AgentAction).abortTask = false) ∧
    (processRound [] (fun _ => (true, "")) (fun _ => (true, ""))
        ⟨[("src/types.ts", "interface X")], [("src/types.ts", "A1")]⟩
        ⟨"A1", SubAgentStatus.working, [], ⟨none, none, []⟩, false, 0, 0,
          none, none⟩
        ⟨[("src/Foo.tsx", "foo")], ["src/types.ts"], [], [], [], [], false,
          none⟩ 5).1 =
      ⟨[("src/types.ts", "interface X")], [("src/types.ts", "A1")]⟩ ∧
    (processRound [] (fun _ => (true, "")) (fun _ => (true, ""))
        ⟨[("src/types.ts", "interface X")], [("src/types.ts", "A1")]⟩
        ⟨"A1", SubAgentStatus.working, [], ⟨none, none, []⟩, false, 0, 0,
          none, none⟩
        ⟨[("src/Foo.tsx", "foo")], ["src/types.ts"], [], [], [], [], false,
          none⟩ 5).2.2 = RoundCtl.continued := by
  have h := c4_read_write_deferral [] (fun _ => (true, "")) (fun _ => (true, ""))
    ⟨[("src/types.ts", "interface X")], [("src/types.ts", "A1")]⟩
    ⟨"A1", SubAgentStatus.working, [], ⟨none, none, []⟩, false, 0, 0,
      none, none⟩
    ⟨[("src/Foo.tsx", "foo")], ["src/types.ts"], [], [], [], [], false, none⟩
    5 rfl (by decide) (by decide)
  exact ⟨rfl, h.1, h.2.1⟩

/-- C7: for a root agent, a build success resets the consecutive-failure
counter to zero and each build failure increments it; while the counter
stays below the ceiling of 3 the enhanced error text is appended to the
agent's message log and the loop continues; and starting from a zero
counter, three consecutive build failures fail the agent and stop the
loop after exactly three build attempts, whatever build results would
have followed — a fourth attempt is never made. -/
theorem c7_build_failure_ceiling (enhance : String → String) (now : Nat)
    (ag : RunnerAgent) (res e1 e2 e3 : String) (rest : List (Bool × String))
    (h0 : ag.consecutiveFailures = 0) :
    ((buildRound enhance ag true res now).1.consecutiveFailures = 0) ∧
    (∀ a : RunnerAgent,
      (buildRound enhance a false res now).1.consecutiveFailures =
        a.consecutiveFailures + 1) ∧
    (∀ a : RunnerAgent, a.consecutiveFailures + 1 < 3 →
      buildRound enhance a false res now =
        (addRunnerMsg { a with consecutiveFailures := a.consecutiveFailures + 1 }
          "system" ("❌ Project Compilation Failed:\n" ++ enhance res ++
            "\n\nPlease analyze the error and modify the code to fix it.")
          "error" now, false)) ∧
    ((runBuilds enhance now ag
        ((false, e1) :: (false, e2) :: (false, e3) :: rest)).2 = 3 ∧
      (runBuilds enhance now ag
        ((false, e1) :: (false, e2) :: (false, e3) :: rest)).1.status =
        SubAgentStatus.failed) := by
  refine ⟨by simp [buildRound], ?_, ?_, ?_⟩
  · intro a
    by_cases h3 : 3 ≤ a.consecutiveFailures + 1 <;>
      simp [buildRound, addRunnerMsg, h3]
  · intro a hlt
    simp [buildRound, Nat.not_le.mpr hlt]
  · constructor <;> simp [runBuilds, buildRound, addRunnerMsg, h0]

/-- C7 witness. -/
theorem c7_build_failure_ceiling_witness :
    ((⟨"A1", SubAgentStatus.working, [], ⟨none, none, []⟩, false, 0, 0, none,
        none⟩ : RunnerAgent).consecutiveFailures = 0) ∧
    ((runBuilds (fun s => s) 2
        ⟨"A1", SubAgentStatus.working, [], ⟨none, none, []⟩, false, 0, 0,
          none, none⟩
        ((false, "a") :: (false, "b") :: (false, "c") :: [(true, "d")])).2
      = 3 ∧
      (runBuilds (fun s => s) 2
        ⟨"A1", SubAgentStatus.working, [], ⟨none, none, []⟩, false, 0, 0,
          none, none⟩
        ((false, "a") :: (false, "b") :: (false, "c") :: [(true, "d")])).1.status
      = SubAgentStatus.failed) := by
  have h := c7_build_failure_ceiling (fun s => s) 2
    ⟨"A1", SubAgentStatus.working, [], ⟨none, none, []⟩, false, 0, 0, none,
      none⟩ "r" "a" "b" "c" [(true, "d")] rfl
  exact ⟨rfl, h.2.2.2⟩

/-- C8 counterexample: with the review ceiling at its configured default
of 3, the rejection that carries a agent from round 2 to round 3 — a
review rejection in every sense, and counted as one — does *not* append
the reviewer's commentary to the agent's message log: the log is
unchanged, refuting "each review rejection … appends the reviewer's
commentary to the agent's message log". -/
theorem c8_counterexample :
    (reviewPhase 3 ⟨"A1", SubAgentStatus.working, [], ⟨none, none, []⟩,
        false, 2, 0, none, none⟩ false "bad" 9).1.messages = [] ∧
    (reviewPhase 3 ⟨"A1", SubAgentStatus.working, [], ⟨none, none, []⟩,
        false, 2, 0, none, none⟩ false "bad" 9).1.reviewRounds = 3 := by
  exact ⟨by decide, by decide⟩

/-- C8 (amended): after a successful build, each review rejection
increments the agent's review-round counter and records the commentary
as the last review comment; while the incremented counter is still
below the configured ceiling the reviewer's commentary is appended to
the agent's message log as rejection feedback and the loop returns to
another generation round without deploying; the rejection that reaches
the ceiling appends no feedback message — instead the system fail-opens:
it marks the review status as passed, records a warning (containing the
commentary) in the agent's metadata for follow-up, and proceeds to
deploy. -/
theorem c8_review_failopen_amended (maxR : Nat) (ag : RunnerAgent)
    (comment : String) (now : Nat) :
    ((reviewPhase maxR ag false comment now).1.reviewRounds =
      ag.reviewRounds + 1) ∧
    ((reviewPhase maxR ag false comment now).1.lastReviewComment =
      some comment) ∧
    (ag.reviewRounds + 1 < maxR →
      (reviewPhase maxR ag false comment now).2 = false ∧
      (reviewPhase maxR ag false comment now).1.messages =
        ag.messages ++ [⟨"system", reviewRejectMsg comment, "feedback", now⟩]) ∧
    (maxR ≤ ag.reviewRounds + 1 →
      (reviewPhase maxR ag false comment now).2 = true ∧
      (reviewPhase maxR ag false comment now).1.metadata.reviewStatus =
        some "PASS" ∧
      (reviewPhase maxR ag false comment now).1.metadata.reviewWarning =
        some (reviewWarningMsg (ag.reviewRounds + 1) comment) ∧
      (reviewPhase maxR ag false comment now).1.messages = ag.messages) := by
  refine ⟨?_, ?_, ?_, ?_⟩
  · by_cases h : maxR ≤ ag.reviewRounds + 1 <;>
      simp [reviewPhase, addRunnerMsg, h]
  · by_cases h : maxR ≤ ag.reviewRounds + 1 <;>
      simp [reviewPhase, addRunnerMsg, h]
  · intro hlt
    simp [reviewPhase, addRunnerMsg, Nat.not_le.mpr hlt]
  · intro hge
    simp [reviewPhase, addRunnerMsg, hge]

/-- C8 amended witness. -/
theorem c8_review_failopen_amended_witness :
    ((0 : Nat) + 1 < 3 ∧
      (reviewPhase 3 ⟨"A1", SubAgentStatus.working, [], ⟨none, none, []⟩,
          false, 0, 0, none, none⟩ false "bad" 9).2 = false ∧
      (reviewPhase 3 ⟨"A1", SubAgentStatus.working, [], ⟨none, none, []⟩,
          false, 0, 0, none, none⟩ false "bad" 9).1.messages =
        [] ++ [⟨"system", reviewRejectMsg "bad", "feedback", 9⟩]) ∧
    (3 ≤ (2 : Nat) + 1 ∧
      (reviewPhase 3 ⟨"A1", SubAgentStatus.working, [], ⟨none, none, []⟩,
          false, 2, 0, none, none⟩ false "bad" 9).2 = true ∧
      (reviewPhase 3 ⟨"A1", SubAgentStatus.working, [], ⟨none, none, []⟩,
          false, 2, 0, none, none⟩ false "bad" 9).1.metadata.reviewStatus =
        some "PASS") := by
  have h1 := c8_review_failopen_amended 3
    ⟨"A1", SubAgentStatus.working, [], ⟨none, none, []⟩, false, 0, 0, none,
      none⟩ "bad" 9
  have h2 := c8_review_failopen_amended 3
    ⟨"A1", SubAgentStatus.working, [], ⟨none, none, []⟩, false, 2, 0, none,
      none⟩ "bad" 9
  refine ⟨⟨by decide, h1.2.2.1 (by decide)⟩, ?_⟩
  have h := h2.2.2.2 (by decide)
  exact ⟨by decide, h.1, h.2.1⟩

end WebDev
